import Mathlib

/-!
Verification of the EcoEvoCRM `AnimationController`.

A shallow embedding of `src/ecoevocrm/gui/animation_controller.py`.

Python floats are modelled as rationals (`ℚ`), Python lists as `List`,
and Python dicts (insertion-ordered, as Python guarantees) as association
lists `List (ℕ × α)` with first-match lookup and in-place overwrite.
Lineage identifiers are modelled as `ℕ`.

`bisect.bisect_left` is embedded by its specification on sorted lists
(the index of the first element `≥ t`, equivalently the number of leading
elements `< t`), which is exactly what the binary search computes on the
sorted `buffer_times` list the controller maintains.

NumPy 2-D arrays (`N_epoch` with shape `(num_types, num_times)`) are
modelled as `List (List ℚ)` of rows; `shape[1]` is the length of the
first row (rows of a 2-D NumPy array all share that length).  The 1-D
NumPy case is represented by single-element rows.  The `IndexError`
handler in `add_multi_type_data_chunk` is subsumed by total indexing
with default values (`List.getD`), which returns the same results on all
in-bounds accesses; logging / print diagnostics and the
`_multi_type_chunk_count` throttling counter are not modelled as they do
not affect the observable state the spec talks about.
-/

/-- Python dict lookup (first matching key; a well-formed dict has no
duplicate keys, and every dict built by our operations is well-formed). -/
def dget {α : Type} : List (ℕ × α) → ℕ → Option α
  | [], _ => none
  | (k, v) :: d, a => if k = a then some v else dget d a

/-- Python `dict.get(k, default)`. -/
def dgetD (d : List (ℕ × ℚ)) (k : ℕ) (v : ℚ) : ℚ := (dget d k).getD v

/-- Python dict assignment `d[k] = v`: overwrite in place if the key is
present, otherwise append (preserving insertion order). -/
def dset {α : Type} (d : List (ℕ × α)) (k : ℕ) (v : α) : List (ℕ × α) :=
  if (dget d k).isSome then d.map (fun p => if p.1 = k then (k, v) else p)
  else d ++ [(k, v)]

/-- Python's `bisect.bisect_left` on a sorted list: number of leading elements `< t`. -/
def bisect_left : List ℚ → ℚ → ℕ
  | [], _ => 0
  | x :: xs, t => if x < t then bisect_left xs t + 1 else 0

/-- Python `list.insert(idx, x)` (an index beyond the end appends). -/
def insert_at {α : Type} : List α → ℕ → α → List α
  | l, 0, a => a :: l
  | [], _ + 1, a => [a]
  | x :: xs, n + 1, a => x :: insert_at xs n a

/-- NumPy's `N_epoch.shape[1]` for the row-list model of a 2-D NumPy array. -/
def shape1 (N : List (List ℚ)) : ℕ := (N.headD []).length

/-- The mutable state of `AnimationController` (`__init__`, lines 29-66,
plus the lazily-created `_lineage_to_global_idx` / `_global_lineage_list`
registry, modelled as present-and-empty from the start, which is
observationally the same as the `hasattr` guard in the source).
`last_real_time` is set but never read by any modelled operation and is
omitted. -/
structure AnimationController where
  buffer_times : List ℚ
  buffer_biomass : List ℚ
  buffer_N_by_lineage : List (List (ℕ × ℚ))
  current_lineageIDs : List ℕ
  mutation_events : List ℚ
  animation_time : ℚ
  integration_time : ℚ
  animation_speed : ℚ
  is_playing : Bool
  buffer_critical : ℚ
  buffer_low : ℚ
  lineage_to_global_idx : List (ℕ × ℕ)
  global_lineage_list : List ℕ
deriving DecidableEq, Repr

namespace AnimationController

/-- Embedding of `AnimationController.__init__(default_speed, buffer_critical, buffer_low)`. -/
def init (default_speed buffer_critical buffer_low : ℚ) : AnimationController :=
  { buffer_times := []
    buffer_biomass := []
    buffer_N_by_lineage := []
    current_lineageIDs := []
    mutation_events := []
    animation_time := 0
    integration_time := 0
    animation_speed := default_speed
    is_playing := true
    buffer_critical := buffer_critical
    buffer_low := buffer_low
    lineage_to_global_idx := []
    global_lineage_list := [] }

/-- The body of the per-point loop of `add_data_chunk` (lines 107-118):
skip a time already present, otherwise insert `(t, biomass)` at the
`bisect_left` position in both parallel lists and an empty dict at the
same index of `buffer_N_by_lineage`. -/
def insertPoint (c : AnimationController) (t biomass : ℚ) : AnimationController :=
  if t ∈ c.buffer_times then c
  else
    let idx := bisect_left c.buffer_times t
    { c with
      buffer_times := insert_at c.buffer_times idx t
      buffer_biomass := insert_at c.buffer_biomass idx biomass
      buffer_N_by_lineage := insert_at c.buffer_N_by_lineage idx [] }

/-- Embedding of `add_data_chunk(t_epoch, biomass_epoch)` (lines 70-128).  The
length-mismatch truncation to the shorter length (lines 94-102) is the
truncation `List.zip` performs. -/
def add_data_chunk (c : AnimationController) (t_list biomass_list : List ℚ) :
    AnimationController :=
  let c' := (t_list.zip biomass_list).foldl (fun c p => insertPoint c p.1 p.2) c
  if c'.buffer_times.length > 0 then
    { c' with integration_time := c'.buffer_times.getLastD 0 }
  else c'

/-- Embedding of `get_speed_factor()` (lines 246-277). -/
def get_speed_factor (c : AnimationController) : ℚ :=
  let buffer_gap := c.integration_time - c.animation_time
  if buffer_gap < c.buffer_critical then 1/10
  else if buffer_gap < c.buffer_low then
    1/10 + 9/10 * ((buffer_gap - c.buffer_critical) / (c.buffer_low - c.buffer_critical))
  else 1

/-- Embedding of `_interpolate_biomass(t)` (lines 186-242).  Returns the possibly
mutated controller (the defensive length-mismatch truncation of lines
206-215 assigns to the buffers) together with the interpolated value. -/
def interpolate_biomass (c : AnimationController) (t : ℚ) :
    AnimationController × ℚ :=
  if c.buffer_times.length = 0 ∨ c.buffer_biomass.length = 0 then (c, 0)
  else
    let c :=
      if c.buffer_times.length ≠ c.buffer_biomass.length then
        let min_len := min c.buffer_times.length c.buffer_biomass.length
        { c with
          buffer_times := c.buffer_times.take min_len
          buffer_biomass := c.buffer_biomass.take min_len }
      else c
    if t ≤ c.buffer_times.headD 0 then (c, c.buffer_biomass.headD 0)
    else if t ≥ c.buffer_times.getLastD 0 then (c, c.buffer_biomass.getLastD 0)
    else
      let idx := bisect_left c.buffer_times t
      let t0 := c.buffer_times.getD (idx - 1) 0
      let t1 := c.buffer_times.getD idx 0
      let y0 := c.buffer_biomass.getD (idx - 1) 0
      let y1 := c.buffer_biomass.getD idx 0
      if t1 = t0 then (c, y0)
      else (c, y0 + (t - t0) / (t1 - t0) * (y1 - y0))

/-- Embedding of `get_next_frame(real_time_delta)` (lines 132-182).  Returns the
updated controller and the frame (`None` when paused or the buffer is
empty). -/
def get_next_frame (c : AnimationController) (real_time_delta : ℚ) :
    AnimationController × Option (ℚ × ℚ) :=
  if !c.is_playing then (c, none)
  else if c.buffer_times.length = 0 then (c, none)
  else
    let speed_factor := c.get_speed_factor
    let delta_anim_time := real_time_delta * c.animation_speed * speed_factor
    let advanced := c.animation_time + delta_anim_time
    let clamped := if advanced > c.integration_time then c.integration_time else advanced
    let c1 := { c with animation_time := clamped }
    let res := interpolate_biomass c1 clamped
    (res.1, some (clamped, res.2))

/-- Embedding of `play()` (lines 311-313). -/
def play (c : AnimationController) : AnimationController := { c with is_playing := true }

/-- Embedding of `pause()` (lines 317-319). -/
def pause (c : AnimationController) : AnimationController := { c with is_playing := false }

/-- Embedding of `set_speed(speed)` (lines 323-330). -/
def set_speed (c : AnimationController) (speed : ℚ) : AnimationController :=
  { c with animation_speed := max (1/10) (min speed 10) }

/-- The body of the global-registry loop of `add_multi_type_data_chunk`
(lines 357-361): append a not-yet-seen lineage id with the next ordinal. -/
def registerOne (c : AnimationController) (lid : ℕ) : AnimationController :=
  if (dget c.lineage_to_global_idx lid).isSome then c
  else
    { c with
      lineage_to_global_idx :=
        c.lineage_to_global_idx ++ [(lid, c.global_lineage_list.length)]
      global_lineage_list := c.global_lineage_list ++ [lid] }

/-- The global-registry loop of `add_multi_type_data_chunk` (lines 356-361). -/
def registerLineages (c : AnimationController) (lineageIDs : List ℕ) :
    AnimationController :=
  lineageIDs.foldl registerOne c

/-- The inner per-lineage update of `add_multi_type_data_chunk`
(lines 422-447): write row `type_idx`, column `i` (clamped to the last
column when `i` is out of bounds) of `N_epoch` into the dict. -/
def updateDictAt (N : List (List ℚ)) (i : ℕ) (lineageIDs : List ℕ)
    (d : List (ℕ × ℚ)) : List (ℕ × ℚ) :=
  ((List.range lineageIDs.length).zip lineageIDs).foldl
    (fun d q =>
      if q.1 < N.length then
        let row := N.getD q.1 []
        let abundance := if i < shape1 N then row.getD i 0 else row.getLastD 0
        dset d q.2 abundance
      else d)
    d

/-- The body of the per-time-point loop of `add_multi_type_data_chunk`
(lines 413-447): skip a time absent from `buffer_times`
(`list.index` in the source finds the first — and, by sortedness, only —
occurrence, modelled by `List.findIdx`); otherwise merge the epoch's
column into the dict at that index. -/
def multiStep (N : List (List ℚ)) (lineageIDs : List ℕ)
    (c : AnimationController) (p : ℕ × ℚ) : AnimationController :=
  if p.2 ∈ c.buffer_times then
    let idx := c.buffer_times.findIdx (fun x => x = p.2)
    { c with
      buffer_N_by_lineage :=
        c.buffer_N_by_lineage.set idx
          (updateDictAt N p.1 lineageIDs (c.buffer_N_by_lineage.getD idx [])) }
  else c

/-- Embedding of `add_multi_type_data_chunk(t_epoch, N_epoch, lineageIDs)`
(lines 334-463). -/
def add_multi_type_data_chunk (c0 : AnimationController) (t_list0 : List ℚ)
    (N : List (List ℚ)) (lineageIDs0 : List ℕ) : AnimationController :=
  let c1 := registerLineages c0 lineageIDs0
  let expected_time_points := shape1 N
  let lineageIDs :=
    if N.length ≠ lineageIDs0.length then
      lineageIDs0.take (min N.length lineageIDs0.length)
    else lineageIDs0
  let t_list :=
    if t_list0.length ≠ expected_time_points then
      t_list0.take (min t_list0.length expected_time_points)
    else t_list0
  let c2 :=
    if lineageIDs.length > c1.current_lineageIDs.length ∧ 0 < t_list.length then
      { c1 with mutation_events := c1.mutation_events ++ [t_list.getLastD 0] }
    else c1
  let c3 := { c2 with current_lineageIDs := lineageIDs }
  let c4 : AnimationController :=
    ((List.range t_list.length).zip t_list).foldl (multiStep N lineageIDs) c3
  if c4.buffer_times.length > 0 then
    { c4 with integration_time := c4.buffer_times.getLastD 0 }
  else c4

/-- Toward `_interpolate_multi_type_abundance(t)` (lines 467-530).  The Python
set-union iteration order is unspecified; the result dict is modelled by
enumerating the keys of the earlier dict first, then the new keys of the
later dict — every property we state about the result is about lookups,
which are independent of that order. -/
def interp_union_keys (d0 d1 : List (ℕ × ℚ)) : List ℕ :=
  d0.map Prod.fst ++ (d1.map Prod.fst).filter (fun k => ¬ k ∈ d0.map Prod.fst)

/-- The per-lineage interpolation loop of lines 522-528. -/
def interpDicts (d0 d1 : List (ℕ × ℚ)) (alpha : ℚ) : List (ℕ × ℚ) :=
  (interp_union_keys d0 d1).map
    (fun k => (k, dgetD d0 k 0 + alpha * (dgetD d1 k 0 - dgetD d0 k 0)))

/-- Embedding of `_interpolate_multi_type_abundance(t)` (lines 467-530), returning the
possibly mutated controller (defensive truncation, lines 487-497) and
the interpolated dict. -/
def interpolate_multi_type_abundance (c : AnimationController) (t : ℚ) :
    AnimationController × List (ℕ × ℚ) :=
  if c.buffer_times.length = 0 ∨ c.buffer_N_by_lineage.length = 0 then (c, [])
  else
    let c :=
      if c.buffer_times.length ≠ c.buffer_N_by_lineage.length then
        let min_len := min c.buffer_times.length c.buffer_N_by_lineage.length
        { c with
          buffer_times := c.buffer_times.take min_len
          buffer_biomass := c.buffer_biomass.take min_len
          buffer_N_by_lineage := c.buffer_N_by_lineage.take min_len }
      else c
    if t ≤ c.buffer_times.headD 0 then (c, c.buffer_N_by_lineage.headD [])
    else if t ≥ c.buffer_times.getLastD 0 then (c, c.buffer_N_by_lineage.getLastD [])
    else
      let idx := bisect_left c.buffer_times t
      let t0 := c.buffer_times.getD (idx - 1) 0
      let t1 := c.buffer_times.getD idx 0
      let d0 := c.buffer_N_by_lineage.getD (idx - 1) []
      let d1 := c.buffer_N_by_lineage.getD idx []
      let alpha := if t0 < t1 then (t - t0) / (t1 - t0) else 0
      (c, interpDicts d0 d1 alpha)

/-- Embedding of `get_mutation_events_in_range(t_start, t_end)` (lines 534-545). -/
def get_mutation_events_in_range (c : AnimationController) (t_start t_end : ℚ) :
    List ℚ :=
  c.mutation_events.filter (fun t => t_start ≤ t ∧ t ≤ t_end)

/-- Embedding of `reset()` (lines 549-559). -/
def reset (c : AnimationController) : AnimationController :=
  { c with
    buffer_times := []
    buffer_biomass := []
    buffer_N_by_lineage := []
    current_lineageIDs := []
    mutation_events := []
    animation_time := 0
    integration_time := 0
    is_playing := true }

end AnimationController

open AnimationController

/-! ## Basic lemmas about the list and dict primitives -/

theorem insert_at_length {α : Type} :
    ∀ (l : List α) (n : ℕ) (a : α), (insert_at l n a).length = l.length + 1
  | l, 0, _ => by cases l <;> rfl
  | [], _ + 1, _ => rfl
  | x :: xs, n + 1, a => by
    simp [insert_at, insert_at_length xs n a]

theorem mem_insert_at {α : Type} :
    ∀ (l : List α) (n : ℕ) (a x : α), (x ∈ insert_at l n a ↔ x = a ∨ x ∈ l)
  | l, 0, a, x => by simp [insert_at]
  | [], n + 1, a, x => by simp [insert_at]
  | y :: ys, n + 1, a, x => by
    simp [insert_at, mem_insert_at ys n a x]
    tauto

theorem insert_at_bisect_sorted :
    ∀ (l : List ℚ) (t : ℚ), l.Pairwise (· < ·) → t ∉ l →
      (insert_at l (bisect_left l t) t).Pairwise (· < ·)
  | [], t, _, _ => by simp [bisect_left, insert_at]
  | x :: xs, t, hs, ht => by
    rcases List.pairwise_cons.1 hs with ⟨hx, hxs⟩
    by_cases hlt : x < t
    · have ht' : t ∉ xs := fun h => ht (List.mem_cons_of_mem _ h)
      have : insert_at (x :: xs) (bisect_left (x :: xs) t) t
          = x :: insert_at xs (bisect_left xs t) t := by
        simp [bisect_left, if_pos hlt, insert_at]
      rw [this]
      refine List.pairwise_cons.2 ⟨?_, insert_at_bisect_sorted xs t hxs ht'⟩
      intro y hy
      rcases (mem_insert_at xs (bisect_left xs t) t y).1 hy with rfl | hy'
      · exact hlt
      · exact hx y hy'
    · have hne : t ≠ x := fun h => ht (h ▸ List.mem_cons_self x xs)
      have htx : t < x := lt_of_le_of_ne (not_lt.1 hlt) hne
      have : insert_at (x :: xs) (bisect_left (x :: xs) t) t = t :: x :: xs := by
        simp [bisect_left, if_neg hlt, insert_at]
      rw [this]
      refine List.pairwise_cons.2 ⟨?_, hs⟩
      intro y hy
      rcases List.mem_cons.1 hy with rfl | hy'
      · exact htx
      · exact lt_trans htx (hx y hy')

theorem getLastD_mem {α : Type} :
    ∀ (l : List α), l ≠ [] → ∀ d : α, l.getLastD d ∈ l
  | [], h, _ => absurd rfl h
  | [a], _, d => by simp
  | a :: b :: t, _, d => by
    rw [List.getLastD_cons]
    exact List.mem_cons_of_mem a (getLastD_mem (b :: t) (by simp) a)

theorem sorted_le_getLastD :
    ∀ (l : List ℚ), l.Pairwise (· < ·) → ∀ x ∈ l, ∀ d : ℚ, x ≤ l.getLastD d
  | [], _, x, hx, _ => absurd hx (List.not_mem_nil x)
  | [a], _, x, hx, d => by
    simp at hx
    simp [hx]
  | a :: b :: t, hs, x, hx, d => by
    rw [List.getLastD_cons]
    rcases List.mem_cons.1 hx with hxa | hx'
    · subst hxa
      have hlast : (b :: t).getLastD x ∈ b :: t := getLastD_mem (b :: t) (by simp) x
      exact le_of_lt ((List.pairwise_cons.1 hs).1 _ hlast)
    · exact sorted_le_getLastD (b :: t) (List.pairwise_cons.1 hs).2 x hx' a

theorem headD_eq_getD {α : Type} (l : List α) (d : α) : l.headD d = l.getD 0 d := by
  cases l <;> rfl

theorem getD_irrel {α : Type} (l : List α) (n : ℕ) (hn : n < l.length) (d d' : α) :
    l.getD n d = l.getD n d' := by
  rw [List.getD_eq_getElem?_getD, List.getElem?_eq_getElem hn,
      List.getD_eq_getElem?_getD, List.getElem?_eq_getElem hn]
  rfl

theorem getLastD_eq_getD {α : Type} :
    ∀ (l : List α), l ≠ [] → ∀ d : α, l.getLastD d = l.getD (l.length - 1) d
  | [], h, _ => absurd rfl h
  | [a], _, d => rfl
  | a :: b :: t, _, d => by
    rw [List.getLastD_cons]
    have hlen : (a :: b :: t).length - 1 = (b :: t).length - 1 + 1 := by
      simp
    rw [hlen, List.getD_cons_succ, getLastD_eq_getD (b :: t) (by simp) a]
    exact getD_irrel (b :: t) ((b :: t).length - 1) (by simp) a d

theorem getD_mem {α : Type} (l : List α) (i : ℕ) (hi : i < l.length) (d : α) :
    l.getD i d ∈ l := by
  rw [List.getD_eq_getElem?_getD, List.getElem?_eq_getElem hi]
  exact List.getElem_mem hi

theorem sorted_getD_lt (l : List ℚ) (hs : l.Pairwise (· < ·)) (i j : ℕ)
    (hij : i < j) (hj : j < l.length) : l.getD i 0 < l.getD j 0 := by
  have hi : i < l.length := lt_trans hij hj
  rw [List.getD_eq_getElem?_getD, List.getElem?_eq_getElem hi,
      List.getD_eq_getElem?_getD, List.getElem?_eq_getElem hj]
  exact List.pairwise_iff_getElem.1 hs i j hi hj hij

theorem bisect_left_le_length : ∀ (l : List ℚ) (t : ℚ), bisect_left l t ≤ l.length
  | [], _ => le_refl 0
  | x :: xs, t => by
    by_cases h : x < t
    · simp only [bisect_left, if_pos h, List.length_cons]
      exact Nat.succ_le_succ (bisect_left_le_length xs t)
    · simp [bisect_left, if_neg h]

theorem bisect_left_self :
    ∀ (l : List ℚ), l.Pairwise (· < ·) → ∀ i, i < l.length →
      bisect_left l (l.getD i 0) = i
  | [], _, i, hi => by simp at hi
  | x :: xs, _, 0, _ => by simp [bisect_left]
  | x :: xs, hs, i + 1, hi => by
    have him : xs.getD i 0 ∈ xs := getD_mem xs i (by simpa using hi) 0
    have hx : x < xs.getD i 0 := (List.pairwise_cons.1 hs).1 _ him
    simp only [List.getD_cons_succ, bisect_left, if_pos hx]
    rw [bisect_left_self xs (List.pairwise_cons.1 hs).2 i (by simpa using hi)]

theorem bisect_left_between :
    ∀ (l : List ℚ) (t : ℚ), l.Pairwise (· < ·) → ∀ i, i + 1 < l.length →
      l.getD i 0 < t → t ≤ l.getD (i + 1) 0 → bisect_left l t = i + 1
  | [], _, _, i, hi, _, _ => by simp at hi
  | x :: xs, t, hs, 0, hi, h0, h1 => by
    have hx : x < t := by simpa using h0
    have hxs : bisect_left xs t = 0 := by
      cases xs with
      | nil => rfl
      | cons y ys =>
        have hty : t ≤ y := by simpa using h1
        simp [bisect_left, not_lt.2 hty]
    simp [bisect_left, if_pos hx, hxs]
  | x :: xs, t, hs, i + 1, hi, h0, h1 => by
    have him : xs.getD i 0 ∈ xs := getD_mem xs i (by simp at hi; omega) 0
    have hx : x < t := lt_trans ((List.pairwise_cons.1 hs).1 _ him) (by simpa using h0)
    simp only [bisect_left, if_pos hx]
    rw [bisect_left_between xs t (List.pairwise_cons.1 hs).2 i (by simpa using hi)
      (by simpa using h0) (by simpa using h1)]

/-! ## Dict lemmas -/

theorem dget_map_keys (ks : List ℕ) (g : ℕ → ℚ) (k : ℕ) :
    dget (ks.map fun a => (a, g a)) k = if k ∈ ks then some (g k) else none := by
  induction ks with
  | nil => simp [dget]
  | cons a ks ih =>
    by_cases hak : a = k
    · subst hak
      simp [dget]
    · simp [dget, hak, ih, Ne.symm hak]

theorem mem_keys_iff_isSome (d : List (ℕ × ℚ)) (k : ℕ) :
    k ∈ d.map Prod.fst ↔ (dget d k).isSome := by
  induction d with
  | nil => simp [dget]
  | cons p d ih =>
    obtain ⟨a, v⟩ := p
    by_cases hak : a = k
    · subst hak
      simp [dget]
    · simp [dget, hak, ih, Ne.symm hak]

theorem mem_interp_union_keys (d0 d1 : List (ℕ × ℚ)) (k : ℕ) :
    k ∈ interp_union_keys d0 d1 ↔ (dget d0 k).isSome ∨ (dget d1 k).isSome := by
  rw [interp_union_keys, List.mem_append, List.mem_filter]
  rw [← mem_keys_iff_isSome, ← mem_keys_iff_isSome]
  simp only [decide_not, Bool.not_eq_true', decide_eq_false_iff_not]
  tauto

theorem dget_interpDicts (d0 d1 : List (ℕ × ℚ)) (alpha : ℚ) (k : ℕ) :
    dget (interpDicts d0 d1 alpha) k =
      if (dget d0 k).isSome ∨ (dget d1 k).isSome then
        some (dgetD d0 k 0 + alpha * (dgetD d1 k 0 - dgetD d0 k 0))
      else none := by
  rw [interpDicts, dget_map_keys]
  by_cases h : (dget d0 k).isSome ∨ (dget d1 k).isSome
  · rw [if_pos ((mem_interp_union_keys d0 d1 k).2 h), if_pos h]
  · rw [if_neg (fun hk => h ((mem_interp_union_keys d0 d1 k).1 hk)), if_neg h]

theorem dget_append_left {α : Type} (d1 d2 : List (ℕ × α)) (k : ℕ)
    (h : (dget d1 k).isSome) : dget (d1 ++ d2) k = dget d1 k := by
  induction d1 with
  | nil => simp [dget] at h
  | cons p d ih =>
    obtain ⟨a, v⟩ := p
    by_cases hak : a = k
    · subst hak
      simp [dget]
    · simp only [dget, if_neg hak] at h ⊢
      exact ih h

/-! ## Step lemmas for `insertPoint` and the `add_data_chunk` fold -/

theorem insertPoint_sorted (c : AnimationController) (t b : ℚ)
    (hs : c.buffer_times.Pairwise (· < ·)) :
    (insertPoint c t b).buffer_times.Pairwise (· < ·) := by
  unfold insertPoint
  by_cases h : t ∈ c.buffer_times
  · simpa [h] using hs
  · simpa [h] using insert_at_bisect_sorted c.buffer_times t hs h

theorem insertPoint_lenb (c : AnimationController) (t b : ℚ)
    (h : c.buffer_biomass.length = c.buffer_times.length) :
    (insertPoint c t b).buffer_biomass.length = (insertPoint c t b).buffer_times.length := by
  unfold insertPoint
  by_cases hm : t ∈ c.buffer_times
  · simpa [hm] using h
  · simp [hm, insert_at_length, h]

theorem insertPoint_lenN (c : AnimationController) (t b : ℚ)
    (h : c.buffer_N_by_lineage.length = c.buffer_times.length) :
    (insertPoint c t b).buffer_N_by_lineage.length
      = (insertPoint c t b).buffer_times.length := by
  unfold insertPoint
  by_cases hm : t ∈ c.buffer_times
  · simpa [hm] using h
  · simp [hm, insert_at_length, h]

theorem insertPoint_mem (c : AnimationController) (t b x : ℚ)
    (hx : x ∈ c.buffer_times) : x ∈ (insertPoint c t b).buffer_times := by
  unfold insertPoint
  by_cases hm : t ∈ c.buffer_times
  · simpa [hm] using hx
  · simp only [hm, if_false]
    exact (mem_insert_at _ _ _ _).2 (Or.inr hx)

theorem insertPoint_mem_sub (c : AnimationController) (t b x : ℚ)
    (hx : x ∈ (insertPoint c t b).buffer_times) : x ∈ c.buffer_times ∨ x = t := by
  unfold insertPoint at hx
  by_cases hm : t ∈ c.buffer_times
  · simp [hm] at hx
    exact Or.inl hx
  · simp only [hm, if_false] at hx
    rcases (mem_insert_at _ _ _ _).1 hx with h | h
    · exact Or.inr h
    · exact Or.inl h

theorem insertPoint_frame (c : AnimationController) (t b : ℚ) :
    (insertPoint c t b).animation_time = c.animation_time ∧
    (insertPoint c t b).integration_time = c.integration_time ∧
    (insertPoint c t b).animation_speed = c.animation_speed ∧
    (insertPoint c t b).is_playing = c.is_playing ∧
    (insertPoint c t b).current_lineageIDs = c.current_lineageIDs ∧
    (insertPoint c t b).mutation_events = c.mutation_events ∧
    (insertPoint c t b).lineage_to_global_idx = c.lineage_to_global_idx ∧
    (insertPoint c t b).global_lineage_list = c.global_lineage_list ∧
    (insertPoint c t b).buffer_critical = c.buffer_critical ∧
    (insertPoint c t b).buffer_low = c.buffer_low := by
  unfold insertPoint
  by_cases hm : t ∈ c.buffer_times <;> simp [hm]

/-- Combined behaviour of the insertion fold of `add_data_chunk`. -/
theorem foldl_insertPoint_spec :
    ∀ (ps : List (ℚ × ℚ)) (c : AnimationController),
      ((ps.foldl (fun a p => insertPoint a p.1 p.2) c).buffer_times.Pairwise (· < ·)
          ∨ ¬ c.buffer_times.Pairwise (· < ·)) ∧
      (c.buffer_biomass.length = c.buffer_times.length →
        (ps.foldl (fun a p => insertPoint a p.1 p.2) c).buffer_biomass.length
          = (ps.foldl (fun a p => insertPoint a p.1 p.2) c).buffer_times.length) ∧
      (c.buffer_N_by_lineage.length = c.buffer_times.length →
        (ps.foldl (fun a p => insertPoint a p.1 p.2) c).buffer_N_by_lineage.length
          = (ps.foldl (fun a p => insertPoint a p.1 p.2) c).buffer_times.length) ∧
      (∀ x ∈ c.buffer_times,
        x ∈ (ps.foldl (fun a p => insertPoint a p.1 p.2) c).buffer_times) ∧
      (∀ x ∈ (ps.foldl (fun a p => insertPoint a p.1 p.2) c).buffer_times,
        x ∈ c.buffer_times ∨ x ∈ ps.map Prod.fst) ∧
      (ps.foldl (fun a p => insertPoint a p.1 p.2) c).animation_time = c.animation_time ∧
      (ps.foldl (fun a p => insertPoint a p.1 p.2) c).integration_time = c.integration_time ∧
      (ps.foldl (fun a p => insertPoint a p.1 p.2) c).animation_speed = c.animation_speed ∧
      (ps.foldl (fun a p => insertPoint a p.1 p.2) c).is_playing = c.is_playing ∧
      (ps.foldl (fun a p => insertPoint a p.1 p.2) c).current_lineageIDs
        = c.current_lineageIDs ∧
      (ps.foldl (fun a p => insertPoint a p.1 p.2) c).mutation_events = c.mutation_events ∧
      (ps.foldl (fun a p => insertPoint a p.1 p.2) c).lineage_to_global_idx
        = c.lineage_to_global_idx ∧
      (ps.foldl (fun a p => insertPoint a p.1 p.2) c).global_lineage_list
        = c.global_lineage_list ∧
      (ps.foldl (fun a p => insertPoint a p.1 p.2) c).buffer_critical = c.buffer_critical ∧
      (ps.foldl (fun a p => insertPoint a p.1 p.2) c).buffer_low = c.buffer_low
  | [], c => by
    refine ⟨?_, ?_, ?_, ?_, ?_, rfl, rfl, rfl, rfl, rfl, rfl, rfl, rfl, rfl, rfl⟩
    · by_cases h : c.buffer_times.Pairwise (· < ·)
      · exact Or.inl h
      · exact Or.inr h
    · exact fun h => h
    · exact fun h => h
    · exact fun x hx => hx
    · exact fun x hx => Or.inl hx
  | p :: ps, c => by
    have ih := foldl_insertPoint_spec ps (insertPoint c p.1 p.2)
    obtain ⟨ihs, ihlb, ihlN, ihmem, ihsub, iha, ihi, ihsp, ihpl, ihcl, ihme, ihr, ihg,
      ihcrit, ihlow⟩ := ih
    obtain ⟨fa, fi, fsp, fpl, fcl, fme, fr, fg, fcrit, flow⟩ := insertPoint_frame c p.1 p.2
    simp only [List.foldl_cons]
    refine ⟨?_, ?_, ?_, ?_, ?_, iha.trans fa, ihi.trans fi, ihsp.trans fsp, ihpl.trans fpl,
      ihcl.trans fcl, ihme.trans fme, ihr.trans fr, ihg.trans fg, ihcrit.trans fcrit,
      ihlow.trans flow⟩
    · rcases ihs with h | h
      · exact Or.inl h
      · by_cases hc : c.buffer_times.Pairwise (· < ·)
        · exact absurd (insertPoint_sorted c p.1 p.2 hc) h
        · exact Or.inr hc
    · exact fun h => ihlb (insertPoint_lenb c p.1 p.2 h)
    · exact fun h => ihlN (insertPoint_lenN c p.1 p.2 h)
    · exact fun x hx => ihmem x (insertPoint_mem c p.1 p.2 x hx)
    · intro x hx
      rcases ihsub x hx with h | h
      · rcases insertPoint_mem_sub c p.1 p.2 x h with h' | h'
        · exact Or.inl h'
        · exact Or.inr (by simp [h'])
      · exact Or.inr (by simp [h])

/-! ## Interpolation, speed-factor and tick lemmas -/

/-- With aligned buffers, the defensive truncation branch of
`_interpolate_biomass` is not taken and the query does not mutate the
controller. -/
theorem interpolate_biomass_fst (c : AnimationController) (t : ℚ)
    (h : c.buffer_biomass.length = c.buffer_times.length) :
    (interpolate_biomass c t).1 = c := by
  rw [interpolate_biomass]
  split
  · rfl
  · simp only [h, ne_eq, not_true_eq_false, if_false]
    split
    · rfl
    · split
      · rfl
      · split <;> rfl

/-- The query `_interpolate_biomass` touches only the two buffers it truncates,
whatever the lengths are. -/
theorem interpolate_biomass_nonbuffer (c : AnimationController) (t : ℚ) :
    (interpolate_biomass c t).1.animation_time = c.animation_time ∧
    (interpolate_biomass c t).1.integration_time = c.integration_time ∧
    (interpolate_biomass c t).1.animation_speed = c.animation_speed ∧
    (interpolate_biomass c t).1.is_playing = c.is_playing ∧
    (interpolate_biomass c t).1.current_lineageIDs = c.current_lineageIDs ∧
    (interpolate_biomass c t).1.mutation_events = c.mutation_events ∧
    (interpolate_biomass c t).1.lineage_to_global_idx = c.lineage_to_global_idx ∧
    (interpolate_biomass c t).1.global_lineage_list = c.global_lineage_list ∧
    (interpolate_biomass c t).1.buffer_critical = c.buffer_critical ∧
    (interpolate_biomass c t).1.buffer_low = c.buffer_low := by
  rw [interpolate_biomass]
  split
  · exact ⟨rfl, rfl, rfl, rfl, rfl, rfl, rfl, rfl, rfl, rfl⟩
  · by_cases hlen : c.buffer_times.length ≠ c.buffer_biomass.length
    · simp only [if_pos hlen]
      split
      · simp
      · split
        · simp
        · split <;> simp
    · simp only [if_neg hlen]
      split
      · simp
      · split
        · simp
        · split <;> simp

/-- With aligned buffers, `_interpolate_multi_type_abundance` does not
mutate the controller. -/
theorem interpolate_multi_fst (c : AnimationController) (t : ℚ)
    (h : c.buffer_N_by_lineage.length = c.buffer_times.length) :
    (interpolate_multi_type_abundance c t).1 = c := by
  rw [interpolate_multi_type_abundance]
  split
  · rfl
  · simp only [h, ne_eq, not_true_eq_false, if_false]
    split
    · rfl
    · split <;> rfl

/-- The dynamic speed factor is strictly positive for every controller
state, whatever the thresholds. -/
theorem get_speed_factor_pos (c : AnimationController) : 0 < c.get_speed_factor := by
  rw [get_speed_factor]
  split
  · norm_num
  · rename_i h1
    split
    · rename_i h2
      have hnum : 0 ≤ c.integration_time - c.animation_time - c.buffer_critical := by
        have := not_lt.1 h1
        linarith
      have hden : 0 < c.buffer_low - c.buffer_critical := by
        have := not_lt.1 h1
        linarith
      have hdiv : 0 ≤ (c.integration_time - c.animation_time - c.buffer_critical)
          / (c.buffer_low - c.buffer_critical) := div_nonneg hnum (le_of_lt hden)
      nlinarith
    · norm_num

/-- Characterization of the controller after one `get_next_frame` tick
when the two scalar buffers are aligned. -/
theorem get_next_frame_fst (c : AnimationController) (δ : ℚ)
    (hb : c.buffer_biomass.length = c.buffer_times.length) :
    (c.get_next_frame δ).1 =
      if c.is_playing = true ∧ c.buffer_times.length ≠ 0 then
        { c with animation_time :=
            if c.animation_time + δ * c.animation_speed * c.get_speed_factor
                > c.integration_time
            then c.integration_time
            else c.animation_time + δ * c.animation_speed * c.get_speed_factor }
      else c := by
  rw [get_next_frame]
  by_cases hp : c.is_playing
  · have h1 : ¬ ((!c.is_playing) = true) := by simp [hp]
    by_cases hlen : c.buffer_times.length = 0
    · rw [if_neg h1, if_pos hlen,
        if_neg (by simp [hlen] :
          ¬ (c.is_playing = true ∧ c.buffer_times.length ≠ 0))]
    · rw [if_neg h1, if_neg hlen, if_pos ⟨hp, hlen⟩]
      exact interpolate_biomass_fst
        { c with animation_time :=
            if c.animation_time + δ * c.animation_speed * c.get_speed_factor
                > c.integration_time
            then c.integration_time
            else c.animation_time + δ * c.animation_speed * c.get_speed_factor }
        (if c.animation_time + δ * c.animation_speed * c.get_speed_factor
            > c.integration_time
         then c.integration_time
         else c.animation_time + δ * c.animation_speed * c.get_speed_factor)
        (by simpa using hb)
  · rw [if_pos (by simp [hp] : (!c.is_playing) = true),
      if_neg (by simp [hp] : ¬ (c.is_playing = true ∧ c.buffer_times.length ≠ 0))]

/-- A tick never touches the play/pause flag, the buffers' contents aside. -/
theorem get_next_frame_is_playing (c : AnimationController) (δ : ℚ) :
    (c.get_next_frame δ).1.is_playing = c.is_playing := by
  rw [get_next_frame]
  by_cases hp : c.is_playing
  · have h1 : ¬ ((!c.is_playing) = true) := by simp [hp]
    by_cases hlen : c.buffer_times.length = 0
    · rw [if_neg h1, if_pos hlen]
    · rw [if_neg h1, if_neg hlen]
      exact (interpolate_biomass_nonbuffer
        { c with animation_time :=
            if c.animation_time + δ * c.animation_speed * c.get_speed_factor
                > c.integration_time
            then c.integration_time
            else c.animation_time + δ * c.animation_speed * c.get_speed_factor }
        (if c.animation_time + δ * c.animation_speed * c.get_speed_factor
            > c.integration_time
         then c.integration_time
         else c.animation_time + δ * c.animation_speed * c.get_speed_factor)).2.2.2.1
  · rw [if_pos (by simp [hp] : (!c.is_playing) = true)]

/-! ## Lemmas about `registerLineages` and the multi-type update fold -/

theorem registerOne_frame (c : AnimationController) (lid : ℕ) :
    (registerOne c lid).buffer_times = c.buffer_times ∧
    (registerOne c lid).buffer_biomass = c.buffer_biomass ∧
    (registerOne c lid).buffer_N_by_lineage = c.buffer_N_by_lineage ∧
    (registerOne c lid).current_lineageIDs = c.current_lineageIDs ∧
    (registerOne c lid).mutation_events = c.mutation_events ∧
    (registerOne c lid).animation_time = c.animation_time ∧
    (registerOne c lid).integration_time = c.integration_time ∧
    (registerOne c lid).animation_speed = c.animation_speed ∧
    (registerOne c lid).is_playing = c.is_playing ∧
    (registerOne c lid).buffer_critical = c.buffer_critical ∧
    (registerOne c lid).buffer_low = c.buffer_low := by
  unfold registerOne
  split <;> simp

theorem registerLineages_frame :
    ∀ (lids : List ℕ) (c : AnimationController),
      (registerLineages c lids).buffer_times = c.buffer_times ∧
      (registerLineages c lids).buffer_biomass = c.buffer_biomass ∧
      (registerLineages c lids).buffer_N_by_lineage = c.buffer_N_by_lineage ∧
      (registerLineages c lids).current_lineageIDs = c.current_lineageIDs ∧
      (registerLineages c lids).mutation_events = c.mutation_events ∧
      (registerLineages c lids).animation_time = c.animation_time ∧
      (registerLineages c lids).integration_time = c.integration_time ∧
      (registerLineages c lids).animation_speed = c.animation_speed ∧
      (registerLineages c lids).is_playing = c.is_playing ∧
      (registerLineages c lids).buffer_critical = c.buffer_critical ∧
      (registerLineages c lids).buffer_low = c.buffer_low
  | [], c => ⟨rfl, rfl, rfl, rfl, rfl, rfl, rfl, rfl, rfl, rfl, rfl⟩
  | lid :: lids, c => by
    have ih := registerLineages_frame lids (registerOne c lid)
    have hf := registerOne_frame c lid
    obtain ⟨i1, i2, i3, i4, i5, i6, i7, i8, i9, i10, i11⟩ := ih
    obtain ⟨f1, f2, f3, f4, f5, f6, f7, f8, f9, f10, f11⟩ := hf
    exact ⟨i1.trans f1, i2.trans f2, i3.trans f3, i4.trans f4, i5.trans f5, i6.trans f6,
      i7.trans f7, i8.trans f8, i9.trans f9, i10.trans f10, i11.trans f11⟩

/-- An already registered lineage id keeps its ordinal: registration only
appends. -/
theorem registerLineages_lookup :
    ∀ (lids : List ℕ) (c : AnimationController) (k : ℕ),
      (dget c.lineage_to_global_idx k).isSome →
      dget (registerLineages c lids).lineage_to_global_idx k
        = dget c.lineage_to_global_idx k
  | [], _, _, _ => rfl
  | lid :: lids, c, k, hk => by
    show dget (registerLineages (registerOne c lid) lids).lineage_to_global_idx k
      = dget c.lineage_to_global_idx k
    unfold registerOne
    split
    · exact registerLineages_lookup lids c k hk
    · have hpres : dget (c.lineage_to_global_idx
          ++ [(lid, c.global_lineage_list.length)]) k = dget c.lineage_to_global_idx k :=
        dget_append_left _ _ k hk
      rw [registerLineages_lookup lids _ k (by simpa [hpres] using hk)]
      exact hpres

theorem multiStep_frame (N : List (List ℚ)) (lids : List ℕ)
    (c : AnimationController) (p : ℕ × ℚ) :
    (multiStep N lids c p).buffer_times = c.buffer_times ∧
    (multiStep N lids c p).buffer_biomass = c.buffer_biomass ∧
    (multiStep N lids c p).buffer_N_by_lineage.length = c.buffer_N_by_lineage.length ∧
    (multiStep N lids c p).current_lineageIDs = c.current_lineageIDs ∧
    (multiStep N lids c p).mutation_events = c.mutation_events ∧
    (multiStep N lids c p).animation_time = c.animation_time ∧
    (multiStep N lids c p).integration_time = c.integration_time ∧
    (multiStep N lids c p).animation_speed = c.animation_speed ∧
    (multiStep N lids c p).is_playing = c.is_playing ∧
    (multiStep N lids c p).lineage_to_global_idx = c.lineage_to_global_idx ∧
    (multiStep N lids c p).global_lineage_list = c.global_lineage_list ∧
    (multiStep N lids c p).buffer_critical = c.buffer_critical ∧
    (multiStep N lids c p).buffer_low = c.buffer_low := by
  unfold multiStep
  split <;> simp

theorem foldl_multiStep_frame (N : List (List ℚ)) (lids : List ℕ) :
    ∀ (items : List (ℕ × ℚ)) (c : AnimationController),
      (items.foldl (multiStep N lids) c).buffer_times = c.buffer_times ∧
      (items.foldl (multiStep N lids) c).buffer_biomass = c.buffer_biomass ∧
      (items.foldl (multiStep N lids) c).buffer_N_by_lineage.length
        = c.buffer_N_by_lineage.length ∧
      (items.foldl (multiStep N lids) c).current_lineageIDs = c.current_lineageIDs ∧
      (items.foldl (multiStep N lids) c).mutation_events = c.mutation_events ∧
      (items.foldl (multiStep N lids) c).animation_time = c.animation_time ∧
      (items.foldl (multiStep N lids) c).integration_time = c.integration_time ∧
      (items.foldl (multiStep N lids) c).animation_speed = c.animation_speed ∧
      (items.foldl (multiStep N lids) c).is_playing = c.is_playing ∧
      (items.foldl (multiStep N lids) c).lineage_to_global_idx = c.lineage_to_global_idx ∧
      (items.foldl (multiStep N lids) c).global_lineage_list = c.global_lineage_list ∧
      (items.foldl (multiStep N lids) c).buffer_critical = c.buffer_critical ∧
      (items.foldl (multiStep N lids) c).buffer_low = c.buffer_low
  | [], c => ⟨rfl, rfl, rfl, rfl, rfl, rfl, rfl, rfl, rfl, rfl, rfl, rfl, rfl⟩
  | p :: items, c => by
    have ih := foldl_multiStep_frame N lids items (multiStep N lids c p)
    have hf := multiStep_frame N lids c p
    obtain ⟨i1, i2, i3, i4, i5, i6, i7, i8, i9, i10, i11, i12, i13⟩ := ih
    obtain ⟨f1, f2, f3, f4, f5, f6, f7, f8, f9, f10, f11, f12, f13⟩ := hf
    exact ⟨i1.trans f1, i2.trans f2, i3.trans f3, i4.trans f4, i5.trans f5, i6.trans f6,
      i7.trans f7, i8.trans f8, i9.trans f9, i10.trans f10, i11.trans f11, i12.trans f12,
      i13.trans f13⟩

/-- Full characterization of the observable effect of
`add_multi_type_data_chunk` on everything except the dict contents:
buffers' times/biomass and the length of the dict list are unchanged,
the mutation log grows exactly on an entity-count increase with a
nonempty (truncation-adjusted) time list, and already-assigned lineage
ordinals are never changed. -/
theorem add_multi_spec (c0 : AnimationController) (ts : List ℚ)
    (N : List (List ℚ)) (lids0 : List ℕ) :
    (c0.add_multi_type_data_chunk ts N lids0).buffer_times = c0.buffer_times ∧
    (c0.add_multi_type_data_chunk ts N lids0).buffer_biomass = c0.buffer_biomass ∧
    (c0.add_multi_type_data_chunk ts N lids0).buffer_N_by_lineage.length
      = c0.buffer_N_by_lineage.length ∧
    (c0.add_multi_type_data_chunk ts N lids0).animation_time = c0.animation_time ∧
    (c0.add_multi_type_data_chunk ts N lids0).animation_speed = c0.animation_speed ∧
    (c0.add_multi_type_data_chunk ts N lids0).is_playing = c0.is_playing ∧
    (c0.add_multi_type_data_chunk ts N lids0).buffer_critical = c0.buffer_critical ∧
    (c0.add_multi_type_data_chunk ts N lids0).buffer_low = c0.buffer_low ∧
    (c0.add_multi_type_data_chunk ts N lids0).integration_time
      = (if c0.buffer_times.length > 0 then c0.buffer_times.getLastD 0
         else c0.integration_time) ∧
    (c0.add_multi_type_data_chunk ts N lids0).mutation_events
      = (if (if N.length ≠ lids0.length then
              lids0.take (min N.length lids0.length) else lids0).length
              > c0.current_lineageIDs.length
            ∧ 0 < (if ts.length ≠ shape1 N then
              ts.take (min ts.length (shape1 N)) else ts).length then
          c0.mutation_events
            ++ [(if ts.length ≠ shape1 N then
              ts.take (min ts.length (shape1 N)) else ts).getLastD 0]
         else c0.mutation_events) ∧
    (∀ k : ℕ, (dget c0.lineage_to_global_idx k).isSome →
      dget (c0.add_multi_type_data_chunk ts N lids0).lineage_to_global_idx k
        = dget c0.lineage_to_global_idx k) := by
  have hreg := registerLineages_frame lids0 c0
  have hlook := registerLineages_lookup lids0 c0
  rw [add_multi_type_data_chunk]
  set c1 := registerLineages c0 lids0 with hc1
  set li := if N.length ≠ lids0.length then lids0.take (min N.length lids0.length)
    else lids0 with hli
  set tl := if ts.length ≠ shape1 N then ts.take (min ts.length (shape1 N)) else ts
    with htl
  set c2 := if li.length > c1.current_lineageIDs.length ∧ 0 < tl.length then
      { c1 with mutation_events := c1.mutation_events ++ [tl.getLastD 0] } else c1
    with hc2
  set c3 : AnimationController := { c2 with current_lineageIDs := li } with hc3
  obtain ⟨r1, r2, r3, r4, r5, r6, r7, r8, r9, r10, r11⟩ := hreg
  obtain ⟨f1, f2, f3, f4, f5, f6, f7, f8, f9, f10, f11, f12, f13⟩ :=
    foldl_multiStep_frame N li ((List.range tl.length).zip tl) c3
  have h2t : c2.buffer_times = c1.buffer_times := by
    rw [hc2]; split <;> rfl
  have h2b : c2.buffer_biomass = c1.buffer_biomass := by
    rw [hc2]; split <;> rfl
  have h2N : c2.buffer_N_by_lineage = c1.buffer_N_by_lineage := by
    rw [hc2]; split <;> rfl
  have h2a : c2.animation_time = c1.animation_time := by
    rw [hc2]; split <;> rfl
  have h2i : c2.integration_time = c1.integration_time := by
    rw [hc2]; split <;> rfl
  have h2s : c2.animation_speed = c1.animation_speed := by
    rw [hc2]; split <;> rfl
  have h2p : c2.is_playing = c1.is_playing := by
    rw [hc2]; split <;> rfl
  have h2c : c2.buffer_critical = c1.buffer_critical := by
    rw [hc2]; split <;> rfl
  have h2l : c2.buffer_low = c1.buffer_low := by
    rw [hc2]; split <;> rfl
  have h2r : c2.lineage_to_global_idx = c1.lineage_to_global_idx := by
    rw [hc2]; split <;> rfl
  have h2m : c2.mutation_events =
      if li.length > c1.current_lineageIDs.length ∧ 0 < tl.length then
        c1.mutation_events ++ [tl.getLastD 0]
      else c1.mutation_events := by
    rw [hc2]; split <;> rfl
  have h3t : c3.buffer_times = c2.buffer_times := rfl
  have h3b : c3.buffer_biomass = c2.buffer_biomass := rfl
  have h3N : c3.buffer_N_by_lineage = c2.buffer_N_by_lineage := rfl
  have h3a : c3.animation_time = c2.animation_time := rfl
  have h3i : c3.integration_time = c2.integration_time := rfl
  have h3s : c3.animation_speed = c2.animation_speed := rfl
  have h3p : c3.is_playing = c2.is_playing := rfl
  have h3c : c3.buffer_critical = c2.buffer_critical := rfl
  have h3l : c3.buffer_low = c2.buffer_low := rfl
  have h3r : c3.lineage_to_global_idx = c2.lineage_to_global_idx := rfl
  have h3m : c3.mutation_events = c2.mutation_events := rfl
  have htimes : (((List.range tl.length).zip tl).foldl (multiStep N li) c3).buffer_times
      = c0.buffer_times := by
    rw [f1, h3t, h2t, r1]
  split
  · rename_i hlen
    have hlen0 : c0.buffer_times.length > 0 := by
      rw [← htimes]; exact hlen
    refine ⟨htimes, ?_, ?_, ?_, ?_, ?_, ?_, ?_, ?_, ?_, ?_⟩
    · rw [f2, h3b, h2b, r2]
    · rw [f3, h3N, h2N, r3]
    · rw [f6, h3a, h2a, r6]
    · rw [f8, h3s, h2s, r8]
    · rw [f9, h3p, h2p, r9]
    · rw [f12, h3c, h2c, r10]
    · rw [f13, h3l, h2l, r11]
    · rw [if_pos hlen0, htimes]
    · rw [f5, h3m, h2m, r5, r4]
    · intro k hk
      rw [f10, h3r, h2r]
      exact hlook k hk
  · rename_i hlen
    have hlen0 : ¬ c0.buffer_times.length > 0 := by
      rw [← htimes]; exact hlen
    refine ⟨htimes, ?_, ?_, ?_, ?_, ?_, ?_, ?_, ?_, ?_, ?_⟩
    · rw [f2, h3b, h2b, r2]
    · rw [f3, h3N, h2N, r3]
    · rw [f6, h3a, h2a, r6]
    · rw [f8, h3s, h2s, r8]
    · rw [f9, h3p, h2p, r9]
    · rw [f12, h3c, h2c, r10]
    · rw [f13, h3l, h2l, r11]
    · rw [if_neg hlen0, f7, h3i, h2i, r7]
    · rw [f5, h3m, h2m, r5, r4]
    · intro k hk
      rw [f10, h3r, h2r]
      exact hlook k hk

/-- Observable effect of `add_data_chunk` on everything except the
inserted buffer contents and `integration_time`. -/
theorem add_data_chunk_fields (c : AnimationController) (ts bs : List ℚ) :
    (c.add_data_chunk ts bs).is_playing = c.is_playing ∧
    (c.add_data_chunk ts bs).animation_time = c.animation_time ∧
    (c.add_data_chunk ts bs).animation_speed = c.animation_speed ∧
    (c.add_data_chunk ts bs).current_lineageIDs = c.current_lineageIDs ∧
    (c.add_data_chunk ts bs).mutation_events = c.mutation_events ∧
    (c.add_data_chunk ts bs).lineage_to_global_idx = c.lineage_to_global_idx ∧
    (c.add_data_chunk ts bs).global_lineage_list = c.global_lineage_list ∧
    (c.add_data_chunk ts bs).buffer_critical = c.buffer_critical ∧
    (c.add_data_chunk ts bs).buffer_low = c.buffer_low ∧
    ((c.add_data_chunk ts bs).buffer_times.Pairwise (· < ·) ∨
      ¬ c.buffer_times.Pairwise (· < ·)) ∧
    (c.buffer_biomass.length = c.buffer_times.length →
      (c.add_data_chunk ts bs).buffer_biomass.length
        = (c.add_data_chunk ts bs).buffer_times.length) ∧
    (c.buffer_N_by_lineage.length = c.buffer_times.length →
      (c.add_data_chunk ts bs).buffer_N_by_lineage.length
        = (c.add_data_chunk ts bs).buffer_times.length) := by
  obtain ⟨hs, hlb, hlN, hmem, hsub, ha, hi, hsp, hpl, hcl, hme, hr, hg, hcrit, hlow⟩ :=
    foldl_insertPoint_spec (ts.zip bs) c
  rw [add_data_chunk]
  split
  · exact ⟨hpl, ha, hsp, hcl, hme, hr, hg, hcrit, hlow, hs, fun h => hlb h,
      fun h => hlN h⟩
  · exact ⟨hpl, ha, hsp, hcl, hme, hr, hg, hcrit, hlow, hs, fun h => hlb h,
      fun h => hlN h⟩

/-! ## The public operations as a transition system -/

/-- One public call on the controller. -/
inductive Op where
  | addChunk (ts bs : List ℚ) : Op
  | addMulti (ts : List ℚ) (N : List (List ℚ)) (lids : List ℕ) : Op
  | playOp : Op
  | pauseOp : Op
  | setSpeedOp (s : ℚ) : Op
  | tick (delta : ℚ) : Op
  | resetOp : Op

/-- Execute one public call (for `get_next_frame` keep the state, the
frame is discarded). -/
def applyOp (c : AnimationController) : Op → AnimationController
  | Op.addChunk ts bs => c.add_data_chunk ts bs
  | Op.addMulti ts N lids => c.add_multi_type_data_chunk ts N lids
  | Op.playOp => c.play
  | Op.pauseOp => c.pause
  | Op.setSpeedOp s => c.set_speed s
  | Op.tick d => (c.get_next_frame d).1
  | Op.resetOp => c.reset

/-- Execute a sequence of public calls. -/
def applyOps (c : AnimationController) (ops : List Op) : AnimationController :=
  ops.foldl applyOp c

/-- The preconditions claim C1 grants: nonnegative wall-clock deltas and,
after the correction, nonnegative data times. -/
def ValidOp : Op → Prop
  | Op.addChunk ts _ => ∀ t ∈ ts, 0 ≤ t
  | Op.tick d => 0 ≤ d
  | _ => True

/-- The inductive invariant of the controller state. -/
structure CtrlInv (c : AnimationController) : Prop where
  sorted : c.buffer_times.Pairwise (· < ·)
  lenb : c.buffer_biomass.length = c.buffer_times.length
  lenN : c.buffer_N_by_lineage.length = c.buffer_times.length
  times_nonneg : ∀ x ∈ c.buffer_times, 0 ≤ x
  anim_nonneg : 0 ≤ c.animation_time
  anim_le : c.animation_time ≤ c.integration_time
  speed_nonneg : 0 ≤ c.animation_speed
  integ_last : c.buffer_times ≠ [] → c.integration_time = c.buffer_times.getLastD 0
  empty_zero : c.buffer_times = [] → c.animation_time = 0 ∧ c.integration_time = 0

theorem CtrlInv_init (ds bc bl : ℚ) (hds : 0 ≤ ds) : CtrlInv (init ds bc bl) := by
  refine ⟨?_, rfl, rfl, ?_, le_refl 0, le_refl 0, hds, ?_, ?_⟩
  · exact List.Pairwise.nil
  · intro x hx
    exact absurd hx (List.not_mem_nil x)
  · intro h
    exact absurd rfl h
  · exact fun _ => ⟨rfl, rfl⟩

theorem CtrlInv_add_data_chunk (c : AnimationController) (ts bs : List ℚ)
    (hts : ∀ t ∈ ts, 0 ≤ t) (h : CtrlInv c) : CtrlInv (c.add_data_chunk ts bs) := by
  obtain ⟨hs, hlb, hlN, hmem, hsub, ha, hi, hsp, hpl, hcl, hme, hr, hg, hcrit, hlow⟩ :=
    foldl_insertPoint_spec (ts.zip bs) c
  rw [add_data_chunk]
  set F := (ts.zip bs).foldl (fun a p => insertPoint a p.1 p.2) c with hF
  have hsorted : F.buffer_times.Pairwise (· < ·) :=
    hs.resolve_right (fun hn => hn h.sorted)
  have hnn : ∀ x ∈ F.buffer_times, 0 ≤ x := by
    intro x hx
    rcases hsub x hx with hx' | hx'
    · exact h.times_nonneg x hx'
    · rcases List.mem_map.1 hx' with ⟨p, hp, hpx⟩
      rw [← hpx]
      exact hts p.1 (List.of_mem_zip hp).1
  split
  · rename_i hlen
    have hFne : F.buffer_times ≠ [] := by
      intro hemp
      rw [hemp] at hlen
      simp at hlen
    refine ⟨hsorted, hlb h.lenb, hlN h.lenN, hnn, ?_, ?_, ?_, ?_, ?_⟩
    · show (0:ℚ) ≤ F.animation_time
      rw [ha]
      exact h.anim_nonneg
    · show F.animation_time ≤ F.buffer_times.getLastD 0
      rw [ha]
      by_cases hce : c.buffer_times = []
      · rw [(h.empty_zero hce).1]
        exact hnn _ (getLastD_mem F.buffer_times hFne 0)
      · have h1 : c.animation_time ≤ c.buffer_times.getLastD 0 := by
          rw [← h.integ_last hce]
          exact h.anim_le
        have h2 : c.buffer_times.getLastD 0 ∈ F.buffer_times :=
          hmem _ (getLastD_mem c.buffer_times hce 0)
        exact h1.trans (sorted_le_getLastD _ hsorted _ h2 0)
    · show (0:ℚ) ≤ F.animation_speed
      rw [hsp]
      exact h.speed_nonneg
    · exact fun _ => rfl
    · intro hemp
      exact absurd hemp hFne
  · rename_i hlen
    have hFe : F.buffer_times = [] := by
      rcases List.eq_nil_or_concat F.buffer_times with he | ⟨l, a, hla⟩
      · exact he
      · exfalso
        apply hlen
        rw [hla]
        simp
    have hce : c.buffer_times = [] := by
      rw [List.eq_nil_iff_forall_not_mem]
      intro x hx
      have := hmem x hx
      rw [hFe] at this
      exact absurd this (List.not_mem_nil x)
    refine ⟨hsorted, hlb h.lenb, hlN h.lenN, hnn, ?_, ?_, ?_, ?_, ?_⟩
    · rw [ha]
      exact h.anim_nonneg
    · rw [ha, hi]
      exact h.anim_le
    · rw [hsp]
      exact h.speed_nonneg
    · intro hne
      exact absurd hFe hne
    · intro _
      rw [ha, hi]
      exact h.empty_zero hce

theorem CtrlInv_add_multi (c : AnimationController) (ts : List ℚ)
    (N : List (List ℚ)) (lids : List ℕ) (h : CtrlInv c) :
    CtrlInv (c.add_multi_type_data_chunk ts N lids) := by
  obtain ⟨m1, m2, m3, m4, m5, m6, m7, m8, m9, m10, m11⟩ := add_multi_spec c ts N lids
  refine ⟨?_, ?_, ?_, ?_, ?_, ?_, ?_, ?_, ?_⟩
  · rw [m1]
    exact h.sorted
  · rw [m2, m1]
    exact h.lenb
  · rw [m3, m1]
    exact h.lenN
  · rw [m1]
    exact h.times_nonneg
  · rw [m4]
    exact h.anim_nonneg
  · rw [m4, m9]
    split
    · rename_i hlen
      have hne : c.buffer_times ≠ [] := by
        intro hemp
        rw [hemp] at hlen
        simp at hlen
      rw [← h.integ_last hne]
      exact h.anim_le
    · exact h.anim_le
  · rw [m5]
    exact h.speed_nonneg
  · rw [m1, m9]
    intro hne
    rw [if_pos (List.length_pos.2 hne)]
  · rw [m1, m4, m9]
    intro hemp
    refine ⟨(h.empty_zero hemp).1, ?_⟩
    rw [if_neg (by simp [hemp])]
    exact (h.empty_zero hemp).2

theorem CtrlInv_tick (c : AnimationController) (δ : ℚ) (hδ : 0 ≤ δ)
    (h : CtrlInv c) : CtrlInv ((c.get_next_frame δ).1) := by
  rw [get_next_frame_fst c δ h.lenb]
  split
  · rename_i hcond
    have hprod : 0 ≤ δ * c.animation_speed * c.get_speed_factor :=
      mul_nonneg (mul_nonneg hδ h.speed_nonneg) (le_of_lt (get_speed_factor_pos c))
    refine ⟨h.sorted, h.lenb, h.lenN, h.times_nonneg, ?_, ?_, h.speed_nonneg,
      h.integ_last, ?_⟩
    · show (0:ℚ) ≤ if c.animation_time + δ * c.animation_speed * c.get_speed_factor
          > c.integration_time
        then c.integration_time
        else c.animation_time + δ * c.animation_speed * c.get_speed_factor
      split
      · exact h.anim_nonneg.trans h.anim_le
      · exact add_nonneg h.anim_nonneg hprod
    · show (if c.animation_time + δ * c.animation_speed * c.get_speed_factor
            > c.integration_time
          then c.integration_time
          else c.animation_time + δ * c.animation_speed * c.get_speed_factor)
        ≤ c.integration_time
      split
      · exact le_refl _
      · rename_i hng
        exact not_lt.1 hng
    · intro hemp
      exact absurd (by rw [hemp]; rfl : c.buffer_times.length = 0) hcond.2
  · exact h

/-- While playing with aligned buffers, a tick with nonnegative delta
never moves the animation cursor backwards. -/
theorem tick_anim_mono (c : AnimationController) (δ : ℚ) (h : CtrlInv c)
    (hδ : 0 ≤ δ) : c.animation_time ≤ (c.get_next_frame δ).1.animation_time := by
  rw [get_next_frame_fst c δ h.lenb]
  split
  · show c.animation_time ≤ if c.animation_time + δ * c.animation_speed * c.get_speed_factor
        > c.integration_time
      then c.integration_time
      else c.animation_time + δ * c.animation_speed * c.get_speed_factor
    have hprod : 0 ≤ δ * c.animation_speed * c.get_speed_factor :=
      mul_nonneg (mul_nonneg hδ h.speed_nonneg) (le_of_lt (get_speed_factor_pos c))
    split
    · exact h.anim_le
    · exact le_add_of_nonneg_right hprod
  · exact le_refl _

theorem CtrlInv_play (c : AnimationController) (h : CtrlInv c) : CtrlInv c.play :=
  ⟨h.sorted, h.lenb, h.lenN, h.times_nonneg, h.anim_nonneg, h.anim_le, h.speed_nonneg,
    h.integ_last, h.empty_zero⟩

theorem CtrlInv_pause (c : AnimationController) (h : CtrlInv c) : CtrlInv c.pause :=
  ⟨h.sorted, h.lenb, h.lenN, h.times_nonneg, h.anim_nonneg, h.anim_le, h.speed_nonneg,
    h.integ_last, h.empty_zero⟩

theorem CtrlInv_set_speed (c : AnimationController) (s : ℚ) (h : CtrlInv c) :
    CtrlInv (c.set_speed s) := by
  refine ⟨h.sorted, h.lenb, h.lenN, h.times_nonneg, h.anim_nonneg, h.anim_le, ?_,
    h.integ_last, h.empty_zero⟩
  show (0:ℚ) ≤ max (1/10) (min s 10)
  exact le_trans (by norm_num) (le_max_left _ _)

theorem CtrlInv_reset (c : AnimationController) (h : CtrlInv c) : CtrlInv c.reset := by
  refine ⟨List.Pairwise.nil, rfl, rfl, ?_, le_refl 0, le_refl 0, h.speed_nonneg, ?_, ?_⟩
  · intro x hx
    exact absurd hx (List.not_mem_nil x)
  · intro hne
    exact absurd rfl hne
  · exact fun _ => ⟨rfl, rfl⟩

theorem CtrlInv_applyOp (c : AnimationController) (op : Op) (h : CtrlInv c)
    (hv : ValidOp op) : CtrlInv (applyOp c op) := by
  cases op with
  | addChunk ts bs => exact CtrlInv_add_data_chunk c ts bs hv h
  | addMulti ts N lids => exact CtrlInv_add_multi c ts N lids h
  | playOp => exact CtrlInv_play c h
  | pauseOp => exact CtrlInv_pause c h
  | setSpeedOp s => exact CtrlInv_set_speed c s h
  | tick d => exact CtrlInv_tick c d hv h
  | resetOp => exact CtrlInv_reset c h

theorem CtrlInv_applyOps :
    ∀ (ops : List Op) (c : AnimationController), CtrlInv c →
      (∀ op ∈ ops, ValidOp op) → CtrlInv (applyOps c ops)
  | [], c, h, _ => h
  | op :: ops, c, h, hv => by
    show CtrlInv (applyOps (applyOp c op) ops)
    exact CtrlInv_applyOps ops (applyOp c op)
      (CtrlInv_applyOp c op h (hv op (List.mem_cons_self op ops)))
      (fun o ho => hv o (List.mem_cons_of_mem op ho))

/-! ## Alignment of the three parallel buffers under arbitrary operations -/

theorem aligned_applyOp (c : AnimationController) (op : Op)
    (h1 : c.buffer_biomass.length = c.buffer_times.length)
    (h2 : c.buffer_N_by_lineage.length = c.buffer_times.length) :
    (applyOp c op).buffer_biomass.length = (applyOp c op).buffer_times.length ∧
    (applyOp c op).buffer_N_by_lineage.length = (applyOp c op).buffer_times.length := by
  cases op with
  | addChunk ts bs =>
    obtain ⟨_, _, _, _, _, _, _, _, _, _, hb, hN⟩ := add_data_chunk_fields c ts bs
    exact ⟨hb h1, hN h2⟩
  | addMulti ts N lids =>
    obtain ⟨m1, m2, m3, _, _, _, _, _, _, _, _⟩ := add_multi_spec c ts N lids
    show (c.add_multi_type_data_chunk ts N lids).buffer_biomass.length
        = (c.add_multi_type_data_chunk ts N lids).buffer_times.length ∧
      (c.add_multi_type_data_chunk ts N lids).buffer_N_by_lineage.length
        = (c.add_multi_type_data_chunk ts N lids).buffer_times.length
    constructor
    · rw [m2, m1]
      exact h1
    · rw [m3, m1]
      exact h2
  | playOp => exact ⟨h1, h2⟩
  | pauseOp => exact ⟨h1, h2⟩
  | setSpeedOp s => exact ⟨h1, h2⟩
  | tick d =>
    show (c.get_next_frame d).1.buffer_biomass.length
        = (c.get_next_frame d).1.buffer_times.length ∧
      (c.get_next_frame d).1.buffer_N_by_lineage.length
        = (c.get_next_frame d).1.buffer_times.length
    rw [get_next_frame_fst c d h1]
    split
    · exact ⟨h1, h2⟩
    · exact ⟨h1, h2⟩
  | resetOp => exact ⟨rfl, rfl⟩

theorem aligned_applyOps :
    ∀ (ops : List Op) (c : AnimationController),
      c.buffer_biomass.length = c.buffer_times.length →
      c.buffer_N_by_lineage.length = c.buffer_times.length →
      (applyOps c ops).buffer_biomass.length = (applyOps c ops).buffer_times.length ∧
      (applyOps c ops).buffer_N_by_lineage.length = (applyOps c ops).buffer_times.length
  | [], _, h1, h2 => ⟨h1, h2⟩
  | op :: ops, c, h1, h2 => by
    show (applyOps (applyOp c op) ops).buffer_biomass.length = _ ∧ _
    obtain ⟨h1', h2'⟩ := aligned_applyOp c op h1 h2
    exact aligned_applyOps ops (applyOp c op) h1' h2'

/-! ## The claims -/

/-- C9: from a freshly constructed controller, every sequence of public
operations keeps the three parallel buffers at equal length; as a
consequence the defensive truncation branches of `_interpolate_biomass`
and `_interpolate_multi_type_abundance` are not taken, and interpolation
queries return the controller unchanged. -/
theorem C9_buffers_aligned (ds bc bl : ℚ) (ops : List Op) (t : ℚ) :
    (applyOps (init ds bc bl) ops).buffer_biomass.length
      = (applyOps (init ds bc bl) ops).buffer_times.length ∧
    (applyOps (init ds bc bl) ops).buffer_N_by_lineage.length
      = (applyOps (init ds bc bl) ops).buffer_times.length ∧
    (interpolate_biomass (applyOps (init ds bc bl) ops) t).1
      = applyOps (init ds bc bl) ops ∧
    (interpolate_multi_type_abundance (applyOps (init ds bc bl) ops) t).1
      = applyOps (init ds bc bl) ops := by
  obtain ⟨h1, h2⟩ := aligned_applyOps ops (init ds bc bl) rfl rfl
  exact ⟨h1, h2, interpolate_biomass_fst _ t h1, interpolate_multi_fst _ t h2⟩

/-- C3: for every sequence of `add_data_chunk` insertions, in any order
and with arbitrary repeats, the buffer's time sequence is strictly
increasing afterwards. -/
theorem C3_sortedness (ds bc bl : ℚ) (chunks : List (List ℚ × List ℚ)) :
    (chunks.foldl (fun c p => c.add_data_chunk p.1 p.2)
      (init ds bc bl)).buffer_times.Pairwise (· < ·) := by
  have aux : ∀ (cs : List (List ℚ × List ℚ)) (c : AnimationController),
      c.buffer_times.Pairwise (· < ·) →
      (cs.foldl (fun c p => c.add_data_chunk p.1 p.2) c).buffer_times.Pairwise (· < ·) := by
    intro cs
    induction cs with
    | nil => exact fun c h => h
    | cons p cs ih =>
      intro c h
      have hstep := (add_data_chunk_fields c p.1 p.2).2.2.2.2.2.2.2.2.2.1
      exact ih (c.add_data_chunk p.1 p.2) (hstep.resolve_right (fun hn => hn h))
  exact aux chunks (init ds bc bl) List.Pairwise.nil

/-- C4: a repeated time is a no-op: when `t` is already buffered, a
further `add_data_chunk` of `(t, v)` leaves all three buffers unchanged,
whatever `v` is. -/
theorem C4_idempotent_insert (c : AnimationController) (t v : ℚ)
    (ht : t ∈ c.buffer_times) :
    (c.add_data_chunk [t] [v]).buffer_times = c.buffer_times ∧
    (c.add_data_chunk [t] [v]).buffer_biomass = c.buffer_biomass ∧
    (c.add_data_chunk [t] [v]).buffer_N_by_lineage = c.buffer_N_by_lineage := by
  have hF : (([t].zip [v]).foldl (fun a p => insertPoint a p.1 p.2) c) = c := by
    show insertPoint c t v = c
    rw [insertPoint, if_pos ht]
  rw [add_data_chunk, hF]
  split
  · exact ⟨rfl, rfl, rfl⟩
  · exact ⟨rfl, rfl, rfl⟩

/-- Concrete instance of C4: with time `1` buffered, re-inserting `(1, 99)`
changes nothing. -/
def c4w : AnimationController :=
  { init 1 100 1000 with
    buffer_times := [1], buffer_biomass := [5], buffer_N_by_lineage := [[]] }

theorem C4_witness :
    (1:ℚ) ∈ c4w.buffer_times ∧
    (c4w.add_data_chunk [1] [99]).buffer_times = c4w.buffer_times ∧
    (c4w.add_data_chunk [1] [99]).buffer_biomass = c4w.buffer_biomass ∧
    (c4w.add_data_chunk [1] [99]).buffer_N_by_lineage = c4w.buffer_N_by_lineage := by
  have hm : (1:ℚ) ∈ c4w.buffer_times := by
    show (1:ℚ) ∈ [1]
    exact List.mem_singleton.2 rfl
  obtain ⟨w1, w2, w3⟩ := C4_idempotent_insert c4w 1 99 hm
  exact ⟨hm, w1, w2, w3⟩

/-- C8 (amended): buffer insertion, ticking and speed changes never touch
the play/pause flag; `play()` sets it to `true`, `pause()` to `false`,
and `reset()` — contrary to the original claim — also sets it back to
`true`, the initial state. -/
theorem C8_playback_transitions (c : AnimationController) :
    (∀ ts bs, (c.add_data_chunk ts bs).is_playing = c.is_playing) ∧
    (∀ ts N lids, (c.add_multi_type_data_chunk ts N lids).is_playing = c.is_playing) ∧
    (∀ δ, (c.get_next_frame δ).1.is_playing = c.is_playing) ∧
    (∀ s, (c.set_speed s).is_playing = c.is_playing) ∧
    c.play.is_playing = true ∧
    c.pause.is_playing = false ∧
    c.reset.is_playing = true := by
  refine ⟨?_, ?_, ?_, ?_, rfl, rfl, rfl⟩
  · intro ts bs
    exact (add_data_chunk_fields c ts bs).1
  · intro ts N lids
    exact (add_multi_spec c ts N lids).2.2.2.2.2.1
  · intro δ
    exact get_next_frame_is_playing c δ
  · intro s
    exact rfl

/-- C8 counterexample: `reset()` does change the play/pause state — a
paused controller is playing again after `reset()`. -/
theorem C8_counterexample :
    ((init 1 100 1000).pause).is_playing = false ∧
    (((init 1 100 1000).pause).reset).is_playing = true := by
  exact ⟨rfl, rfl⟩

/-- C10: `reset()` empties the buffers, the lineage list, the event log
and both clocks, but leaves the global lineage registry untouched; and
registration never reassigns an ordinal that is already present. -/
theorem C10_reset_preserves_registry (c : AnimationController) :
    c.reset.buffer_times = [] ∧ c.reset.buffer_biomass = [] ∧
    c.reset.buffer_N_by_lineage = [] ∧ c.reset.current_lineageIDs = [] ∧
    c.reset.mutation_events = [] ∧ c.reset.animation_time = 0 ∧
    c.reset.integration_time = 0 ∧
    c.reset.lineage_to_global_idx = c.lineage_to_global_idx ∧
    c.reset.global_lineage_list = c.global_lineage_list ∧
    (∀ (ts : List ℚ) (N : List (List ℚ)) (lids : List ℕ) (k : ℕ),
      (dget c.lineage_to_global_idx k).isSome →
      dget (c.add_multi_type_data_chunk ts N lids).lineage_to_global_idx k
        = dget c.lineage_to_global_idx k) := by
  refine ⟨rfl, rfl, rfl, rfl, rfl, rfl, rfl, rfl, rfl, ?_⟩
  intro ts N lids k hk
  exact (add_multi_spec c ts N lids).2.2.2.2.2.2.2.2.2.2 k hk

/-- Concrete instance for C10: lineage `7` with ordinal `0` survives a
`reset()` and a later registration of the new lineage `8`. -/
def c10w : AnimationController :=
  { init 1 100 1000 with
    lineage_to_global_idx := [(7, 0)], global_lineage_list := [7] }

theorem C10_witness :
    (dget c10w.lineage_to_global_idx 7).isSome = true ∧
    c10w.reset.lineage_to_global_idx = c10w.lineage_to_global_idx ∧
    dget (c10w.add_multi_type_data_chunk [1] [[2]] [8]).lineage_to_global_idx 7
      = dget c10w.lineage_to_global_idx 7 := by
  have hk : (dget c10w.lineage_to_global_idx 7).isSome = true := rfl
  exact ⟨hk, (C10_reset_preserves_registry c10w).2.2.2.2.2.2.2.1,
    (C10_reset_preserves_registry c10w).2.2.2.2.2.2.2.2.2 [1] [[2]] [8] 7 hk⟩

/-- C2: with `buffer_critical < buffer_low`, the speed factor is `0.1`
below the critical gap, ramps linearly as
`0.1 + 0.9·(gap − critical)/(low − critical)` between the thresholds, and
is `1` from the low threshold up. -/
theorem C2_speed_factor_ramp (c : AnimationController)
    (h : c.buffer_critical < c.buffer_low) :
    (c.integration_time - c.animation_time < c.buffer_critical →
      c.get_speed_factor = 1/10) ∧
    (c.buffer_critical ≤ c.integration_time - c.animation_time →
      c.integration_time - c.animation_time < c.buffer_low →
      c.get_speed_factor = 1/10 + 9/10 *
        ((c.integration_time - c.animation_time - c.buffer_critical) /
          (c.buffer_low - c.buffer_critical))) ∧
    (c.buffer_low ≤ c.integration_time - c.animation_time →
      c.get_speed_factor = 1) := by
  refine ⟨?_, ?_, ?_⟩
  · intro hgap
    rw [get_speed_factor, if_pos hgap]
  · intro hge hlt
    rw [get_speed_factor, if_neg (not_lt.2 hge), if_pos hlt]
  · intro hge
    rw [get_speed_factor, if_neg (not_lt.2 (le_trans (le_of_lt h) hge)),
      if_neg (not_lt.2 hge)]

/-- Concrete health-threshold instances of C2: with `critical=100`,
`low=1000`, gaps `50`, `550`, `2000` give factors `0.1`, `0.55`, `1`. -/
def gapCtrl (g : ℚ) : AnimationController :=
  { init 1 100 1000 with integration_time := g }

theorem C2_witness :
    (gapCtrl 50).buffer_critical < (gapCtrl 50).buffer_low ∧
    (gapCtrl 50).get_speed_factor = 1/10 ∧
    (gapCtrl 550).get_speed_factor = 11/20 ∧
    (gapCtrl 2000).get_speed_factor = 1 := by
  refine ⟨by norm_num [gapCtrl, init], ?_, ?_, ?_⟩
  · exact (C2_speed_factor_ramp (gapCtrl 50) (by norm_num [gapCtrl, init])).1
      (by norm_num [gapCtrl, init])
  · refine ((C2_speed_factor_ramp (gapCtrl 550) (by norm_num [gapCtrl, init])).2.1
      (by norm_num [gapCtrl, init]) (by norm_num [gapCtrl, init])).trans ?_
    norm_num [gapCtrl, init]
  · exact (C2_speed_factor_ramp (gapCtrl 2000) (by norm_num [gapCtrl, init])).2.2
      (by norm_num [gapCtrl, init])

/-- C5: querying `_interpolate_biomass` at any buffered time returns
exactly the stored biomass value, whether that time is the first, the
last, or an interior sample. -/
theorem C5_interpolation_exact (c : AnimationController)
    (hs : c.buffer_times.Pairwise (· < ·))
    (hl : c.buffer_biomass.length = c.buffer_times.length)
    (i : ℕ) (hi : i < c.buffer_times.length) :
    (c.interpolate_biomass (c.buffer_times.getD i 0)).2 = c.buffer_biomass.getD i 0 := by
  have hne : c.buffer_times ≠ [] := by
    intro hemp
    rw [hemp] at hi
    simp at hi
  have hbne : c.buffer_biomass ≠ [] := by
    intro hemp
    rw [hemp] at hl
    simp at hl
    omega
  rw [interpolate_biomass,
    if_neg (by omega : ¬ (c.buffer_times.length = 0 ∨ c.buffer_biomass.length = 0)),
    if_neg (by omega : ¬ c.buffer_times.length ≠ c.buffer_biomass.length)]
  by_cases h0 : c.buffer_times.getD i 0 ≤ c.buffer_times.headD 0
  · have hi0 : i = 0 := by
      by_contra hne0
      have hlt : c.buffer_times.getD 0 0 < c.buffer_times.getD i 0 :=
        sorted_getD_lt _ hs 0 i (Nat.pos_of_ne_zero hne0) hi
      rw [headD_eq_getD] at h0
      exact absurd h0 (not_le.2 hlt)
    rw [if_pos h0]
    show c.buffer_biomass.headD 0 = c.buffer_biomass.getD i 0
    rw [headD_eq_getD, hi0]
  · rw [if_neg h0]
    by_cases h1 : c.buffer_times.getD i 0 ≥ c.buffer_times.getLastD 0
    · have hilast : i = c.buffer_times.length - 1 := by
        by_contra hne1
        have hlt : c.buffer_times.getD i 0
            < c.buffer_times.getD (c.buffer_times.length - 1) 0 :=
          sorted_getD_lt _ hs i (c.buffer_times.length - 1) (by omega) (by omega)
        rw [← getLastD_eq_getD c.buffer_times hne 0] at hlt
        exact absurd h1 (not_le.2 hlt)
      rw [if_pos h1]
      show c.buffer_biomass.getLastD 0 = c.buffer_biomass.getD i 0
      rw [getLastD_eq_getD c.buffer_biomass hbne 0, hilast, hl]
    · rw [if_neg h1]
      have hipos : 0 < i := by
        rcases Nat.eq_zero_or_pos i with h | h
        · exfalso
          apply h0
          rw [headD_eq_getD, h]
        · exact h
      have hbis : bisect_left c.buffer_times (c.buffer_times.getD i 0) = i :=
        bisect_left_self c.buffer_times hs i hi
      have ht0 : c.buffer_times.getD (i - 1) 0 < c.buffer_times.getD i 0 :=
        sorted_getD_lt _ hs (i - 1) i (by omega) hi
      rw [hbis, if_neg (ne_of_gt ht0)]
      show c.buffer_biomass.getD (i - 1) 0 +
          (c.buffer_times.getD i 0 - c.buffer_times.getD (i - 1) 0) /
            (c.buffer_times.getD i 0 - c.buffer_times.getD (i - 1) 0) *
          (c.buffer_biomass.getD i 0 - c.buffer_biomass.getD (i - 1) 0)
        = c.buffer_biomass.getD i 0
      rw [div_self (sub_ne_zero.2 (ne_of_gt ht0)), one_mul]
      ring

/-- C6: for a query time strictly between two consecutive buffered times,
`_interpolate_multi_type_abundance` returns a dict over the union of the
entity ids of the two bracketing dicts, treating an id absent on one side
as `0` there before interpolating linearly; ids outside the union are
absent from the result. -/
theorem C6_interp_entity_union (c : AnimationController)
    (hs : c.buffer_times.Pairwise (· < ·))
    (hl : c.buffer_N_by_lineage.length = c.buffer_times.length)
    (i : ℕ) (hi : i + 1 < c.buffer_times.length) (t : ℚ)
    (h0 : c.buffer_times.getD i 0 < t) (h1 : t < c.buffer_times.getD (i + 1) 0)
    (lid : ℕ) :
    dget (c.interpolate_multi_type_abundance t).2 lid =
      if (dget (c.buffer_N_by_lineage.getD i []) lid).isSome
          ∨ (dget (c.buffer_N_by_lineage.getD (i + 1) []) lid).isSome then
        some (dgetD (c.buffer_N_by_lineage.getD i []) lid 0 +
          (t - c.buffer_times.getD i 0) /
            (c.buffer_times.getD (i + 1) 0 - c.buffer_times.getD i 0) *
          (dgetD (c.buffer_N_by_lineage.getD (i + 1) []) lid 0 -
            dgetD (c.buffer_N_by_lineage.getD i []) lid 0))
      else none := by
  have hne : c.buffer_times ≠ [] := by
    intro hemp
    rw [hemp] at hi
    simp at hi
  rw [interpolate_multi_type_abundance,
    if_neg (by omega :
      ¬ (c.buffer_times.length = 0 ∨ c.buffer_N_by_lineage.length = 0)),
    if_neg (by omega : ¬ c.buffer_times.length ≠ c.buffer_N_by_lineage.length)]
  have hh : ¬ (t ≤ c.buffer_times.headD 0) := by
    rw [headD_eq_getD]
    have hle : c.buffer_times.getD 0 0 ≤ c.buffer_times.getD i 0 := by
      rcases Nat.eq_zero_or_pos i with hz | hp
      · rw [hz]
      · exact le_of_lt (sorted_getD_lt _ hs 0 i hp (by omega))
    exact not_le.2 (lt_of_le_of_lt hle h0)
  have hlast : ¬ (t ≥ c.buffer_times.getLastD 0) := by
    rw [getLastD_eq_getD c.buffer_times hne 0]
    have hle : c.buffer_times.getD (i + 1) 0
        ≤ c.buffer_times.getD (c.buffer_times.length - 1) 0 := by
      rcases eq_or_lt_of_le (show i + 1 ≤ c.buffer_times.length - 1 by omega)
        with he | hlt
      · rw [he]
      · exact le_of_lt (sorted_getD_lt _ hs (i + 1) _ hlt (by omega))
    exact not_le.2 (lt_of_lt_of_le h1 hle)
  rw [if_neg hh, if_neg hlast,
    bisect_left_between c.buffer_times t hs i hi h0 (le_of_lt h1)]
  simp only [Nat.add_sub_cancel]
  rw [if_pos (sorted_getD_lt _ hs i (i + 1) (by omega) hi)]
  show dget (interpDicts (c.buffer_N_by_lineage.getD i [])
      (c.buffer_N_by_lineage.getD (i + 1) [])
      ((t - c.buffer_times.getD i 0) /
        (c.buffer_times.getD (i + 1) 0 - c.buffer_times.getD i 0))) lid = _
  rw [dget_interpDicts]

/-- Concrete instance of C6: with `{A:1}` buffered at `t=0` and
`{A:2, B:4}` at `t=10` (ids `A=0`, `B=1`), the query at `t=5` yields
`A ↦ 1.5` and `B ↦ 2`, and nothing else. -/
def c6w : AnimationController :=
  { init 1 100 1000 with
    buffer_times := [0, 10], buffer_biomass := [0, 0],
    buffer_N_by_lineage := [[(0, 1)], [(0, 2), (1, 4)]] }

theorem C6_witness :
    (c6w.buffer_times.Pairwise (· < ·) ∧
      c6w.buffer_N_by_lineage.length = c6w.buffer_times.length ∧
      0 + 1 < c6w.buffer_times.length ∧
      c6w.buffer_times.getD 0 0 < 5 ∧ (5:ℚ) < c6w.buffer_times.getD 1 0) ∧
    dget (c6w.interpolate_multi_type_abundance 5).2 0 = some (3/2) ∧
    dget (c6w.interpolate_multi_type_abundance 5).2 1 = some 2 ∧
    dget (c6w.interpolate_multi_type_abundance 5).2 2 = none := by
  refine ⟨⟨by decide, rfl, by decide, by decide, by decide⟩, ?_, ?_, ?_⟩
  · refine (C6_interp_entity_union c6w (by decide) rfl 0 (by decide) 5
      (by decide) (by decide) 0).trans ?_
    norm_num [c6w, init, dget, dgetD]
  · refine (C6_interp_entity_union c6w (by decide) rfl 0 (by decide) 5
      (by decide) (by decide) 1).trans ?_
    norm_num [c6w, init, dget, dgetD]
  · refine (C6_interp_entity_union c6w (by decide) rfl 0 (by decide) 5
      (by decide) (by decide) 2).trans ?_
    norm_num [c6w, init, dget, dgetD]

/-- Concrete instance of C5: with buffered samples
`(0,1), (10,2), (20,3)`, querying at the interior buffered time `10`
returns the stored value `2`. -/
def c5w : AnimationController :=
  { init 1 100 1000 with
    buffer_times := [0, 10, 20], buffer_biomass := [1, 2, 3],
    buffer_N_by_lineage := [[], [], []] }

theorem C5_witness :
    (c5w.buffer_times.Pairwise (· < ·) ∧
      c5w.buffer_biomass.length = c5w.buffer_times.length ∧
      1 < c5w.buffer_times.length) ∧
    (c5w.interpolate_biomass (c5w.buffer_times.getD 1 0)).2
      = c5w.buffer_biomass.getD 1 0 := by
  exact ⟨⟨by decide, rfl, by decide⟩,
    C5_interpolation_exact c5w (by decide) rfl 1 (by decide)⟩

/-- C1 counterexample: the claim as stated fails when a chunk carries a
negative time.  Inserting the single sample `(-5, 1)` into a fresh
controller sets `integration_time = -5` while `animation_time` stays `0`,
so `animation_time ≤ integration_time` is violated right after this
`add_data_chunk` call — the claim constrains only deltas and speeds, not
data times. -/
theorem C1_counterexample :
    ¬ (((init 1 100 1000).add_data_chunk [-5] [1]).animation_time
      ≤ ((init 1 100 1000).add_data_chunk [-5] [1]).integration_time) := by
  decide

/-- C1 (amended): additionally assuming all data times handed to
`add_data_chunk` are nonnegative (and a nonnegative constructor speed),
after any interleaving of the public operations
`animation_time ≤ integration_time` holds, and a further
`get_next_frame` tick with nonnegative wall-clock delta never decreases
`animation_time`. -/
theorem C1_anim_time_bounded_monotone (ds bc bl : ℚ) (hds : 0 ≤ ds)
    (ops : List Op) (hops : ∀ op ∈ ops, ValidOp op) :
    (applyOps (init ds bc bl) ops).animation_time
      ≤ (applyOps (init ds bc bl) ops).integration_time ∧
    ∀ δ : ℚ, 0 ≤ δ →
      (applyOps (init ds bc bl) ops).animation_time
        ≤ ((applyOps (init ds bc bl) ops).get_next_frame δ).1.animation_time := by
  have h := CtrlInv_applyOps ops (init ds bc bl) (CtrlInv_init ds bc bl hds) hops
  exact ⟨h.anim_le, fun δ hδ => tick_anim_mono _ δ h hδ⟩

theorem C1_witness :
    ((0:ℚ) ≤ 1 ∧ (∀ op ∈ [Op.addChunk [5] [2], Op.tick 1], ValidOp op)) ∧
    (applyOps (init 1 100 1000) [Op.addChunk [5] [2], Op.tick 1]).animation_time
      ≤ (applyOps (init 1 100 1000) [Op.addChunk [5] [2], Op.tick 1]).integration_time ∧
    (applyOps (init 1 100 1000) [Op.addChunk [5] [2], Op.tick 1]).animation_time
      ≤ ((applyOps (init 1 100 1000)
          [Op.addChunk [5] [2], Op.tick 1]).get_next_frame 1).1.animation_time := by
  have hops : ∀ op ∈ [Op.addChunk [5] [2], Op.tick 1], ValidOp op := by
    intro op hop
    rcases List.mem_cons.1 hop with h | h
    · subst h
      show ∀ t ∈ [(5:ℚ)], 0 ≤ t
      intro t ht
      rw [List.mem_singleton.1 ht]
      norm_num
    · rcases List.mem_cons.1 h with h' | h'
      · subst h'
        show (0:ℚ) ≤ 1
        norm_num
      · exact absurd h' (List.not_mem_nil op)
  have h := C1_anim_time_bounded_monotone 1 100 1000 (by norm_num)
    [Op.addChunk [5] [2], Op.tick 1] hops
  exact ⟨⟨by norm_num, hops⟩, h.1, h.2 1 (by norm_num)⟩

/-- The epoch chain used to refute C7: counts `1 → 1 → 3`, with the last
epoch spanning the two times `3` and `4`. -/
def c7a : AnimationController := (init 1 100 1000).add_data_chunk [1] [5]

def c7b : AnimationController := c7a.add_multi_type_data_chunk [1] [[5]] [0]

def c7c : AnimationController := c7b.add_data_chunk [2] [6]

def c7d : AnimationController := c7c.add_multi_type_data_chunk [2] [[6]] [0]

def c7e : AnimationController := c7d.add_data_chunk [3, 4] [7, 8]

def c7f : AnimationController :=
  c7e.add_multi_type_data_chunk [3, 4] [[7, 8], [1, 1], [2, 2]] [0, 1, 2]

/-- C7 counterexample: the epochs above have entity counts `1, 1, 3`, yet
TWO events are logged, not one — the first epoch already grows the count
from the initial `0` to `1`.  Moreover the event for the growth to 3 is
stamped `4`, the last time of its epoch, although the new entities `1`
and `2` are already observed at the buffered time `3 < 4` of the same
epoch — so the timestamp is not "the new entities' first observed time". -/
theorem C7_counterexample :
    c7f.mutation_events = [1, 4] ∧
    c7f.buffer_times.getD 2 0 = 3 ∧
    (dget (c7f.buffer_N_by_lineage.getD 2 []) 1).isSome = true ∧
    (dget (c7f.buffer_N_by_lineage.getD 2 []) 2).isSome = true ∧
    ¬ ((4:ℚ) ≤ 3) := by
  decide

/-- C7 (amended): for a contract-conforming epoch (`N` rows = id count,
time count = `N` columns), one event is appended exactly when the epoch's
entity-id count exceeds the previous epoch's count and the epoch's time
list is nonempty, timestamped with the epoch's last time point. -/
theorem C7_mutation_log (c : AnimationController) (ts : List ℚ)
    (N : List (List ℚ)) (lids : List ℕ)
    (hN : N.length = lids.length) (hT : ts.length = shape1 N) :
    (c.add_multi_type_data_chunk ts N lids).mutation_events =
      if lids.length > c.current_lineageIDs.length ∧ 0 < ts.length then
        c.mutation_events ++ [ts.getLastD 0]
      else c.mutation_events := by
  have hm := (add_multi_spec c ts N lids).2.2.2.2.2.2.2.2.2.1
  rw [hm, if_neg (by omega : ¬ N.length ≠ lids.length),
    if_neg (by omega : ¬ ts.length ≠ shape1 N)]

/-- The single-time variant of the `1 → 1 → 3` chain for the amended C7:
exactly two events, at the first epoch and at the growth to 3. -/
def c7g : AnimationController := c7d.add_data_chunk [3] [7]

def c7h : AnimationController :=
  c7g.add_multi_type_data_chunk [3] [[7], [1], [2]] [0, 1, 2]

theorem C7_witness :
    (([[7], [1], [2]] : List (List ℚ)).length = ([0, 1, 2] : List ℕ).length ∧
      ([3] : List ℚ).length = shape1 ([[7], [1], [2]] : List (List ℚ))) ∧
    c7h.mutation_events = [1, 3] ∧
    c7h.mutation_events.length = 2 := by
  refine ⟨⟨rfl, rfl⟩, ?_, ?_⟩
  · refine (C7_mutation_log c7g [3] [[7], [1], [2]] [0, 1, 2] rfl rfl).trans ?_
    decide
  · decide
